import Mathlib

/-!
Verification development for the torcheval distributed metric-state
synchronization layer.

The repository ships two Python sources: the toolkit
(torcheval/metrics/toolkit.py), embedded below directly from the source,
and the test suite of the synclib module (tests/metrics/test_synclib.py).
The synclib module itself (sync_states, _sync_list_length,
_sync_dtype_and_shape, metrics_traversal_order) is not among the source
files, so those operations are modelled from the specification, as marked
in the individual doc comments.

The model is a global one: a collective operation is described by a
function from the ordered list of per-rank contributions to the value
every rank receives (the same on each rank), so a whole protocol run is a
function on the family of per-rank inputs, returning the bundle that every
rank ends up holding.  Flattening (the traversal planner) and reassembly
are fused: the synchronizer recurses over the tree structure directly in
the deterministic traversal order, which produces the same bundle as
flatten-exchange-reassemble.
-/

/-- Element type tag of a numeric buffer (a torch dtype). -/
inductive DType where
  | float32
  | float64
  | int32
  | int64
deriving DecidableEq

/-- A Python number: an integer or a floating value.  Rationals stand in
for floats; only equality and the numeric kind matter in this model. -/
inductive NumVal where
  | intV (n : Int)
  | floatV (q : Rat)
deriving DecidableEq

/-- Numeric kind of a scalar: true exactly for floating values. -/
def NumVal.isFloat : NumVal → Bool
  | .intV _ => false
  | .floatV _ => true

/-- A concrete numeric buffer (tensor): dtype, shape and flattened payload. -/
structure Buffer where
  dtype : DType
  shape : List Nat
  data : List Rat
deriving DecidableEq

mutual
/-- Modelled from the spec (section 3): a state tree is a scalar number, a
possibly absent buffer (none standing for no data yet), an ordered list of
buffers, or a nested mapping of names to subtrees. -/
inductive StateTree where
  | scalar (v : NumVal)
  | tensor (b : Option Buffer)
  | tlist (bs : List Buffer)
  | mapping (m : TreeMap)
deriving DecidableEq

/-- An ordered association sequence of keys to subtrees, standing for a
Python dict in insertion order. -/
inductive TreeMap where
  | nil
  | cons (k : String) (t : StateTree) (rest : TreeMap)
deriving DecidableEq
end

/-- Modelled from the spec (glossary): an all-gather delivers to every rank
the ordered list of all per-rank contributions.  In the global model the
argument already is that ordered list, so the primitive returns it. -/
def all_gather_object (xs : List α) : List α := xs

/-- Modelled from the spec (section 6): the fixed-size buffer all-gather;
same global semantics as the object gather, restricted to buffers. -/
def all_gather_fixed (xs : List Buffer) : List Buffer := xs

/-- Modelled from the spec (section 4.2): every rank all-gathers its local
list length (a single integer); the result, identical on every rank, is
the ordered sequence of lengths indexed by rank. -/
def _sync_list_length (fams : List (List Buffer)) : List Nat :=
  all_gather_object (fams.map List.length)

/-- Small descriptor of a possibly absent buffer: its dtype and shape. -/
def descriptor : Option Buffer → Option (DType × List Nat)
  | none => none
  | some b => some (b.dtype, b.shape)

/-- Modelled from the spec (sections 4.2 and 9): every rank all-gathers a
small descriptor (dtype, shape) or none, never the payload; the first
concrete descriptor in ascending rank order is adopted by every rank (the
observed gather-then-pick-index-0 policy of the design notes); if no rank
is concrete the result is none, meaning absent for all. -/
def _sync_dtype_and_shape (contribs : List (Option Buffer)) :
    Option (DType × List Nat) :=
  ((all_gather_object (contribs.map descriptor)).filterMap id).head?

/-- Zero-initialized buffer of the given dtype and shape, the placeholder a
rank without local data contributes to the fixed-size exchange. -/
def zeroBuffer (dt : DType) (sh : List Nat) : Buffer :=
  ⟨dt, sh, List.replicate (sh.foldr (· * ·) 1) 0⟩

/-- Modelled from the spec (section 4.3, Buffer entries): reconcile dtype
and shape; if absent for all, no communication happens and every rank
receives none at that path; otherwise every rank contributes its own
buffer or the zero placeholder, and the fixed-size all-gather yields one
buffer per rank. -/
def syncBufferEntry (contribs : List (Option Buffer)) : List (Option Buffer) :=
  match _sync_dtype_and_shape contribs with
  | none => contribs.map (fun _ => none)
  | some (dt, sh) =>
      (all_gather_fixed (contribs.map (fun c => c.getD (zeroBuffer dt sh)))).map some

/-- Modelled from the spec (section 4.3, Scalar entries): the raw numeric
values are all-gathered; each slot keeps the contributing rank value and
numeric kind, with no coercion. -/
def syncScalarEntry (vs : List NumVal) : List NumVal :=
  all_gather_object vs

/-- Fallback buffer used only to totalize out-of-range indexing in the
model; never reached on well-formed data. -/
def defaultBuffer : Buffer := ⟨DType.float32, [], []⟩

/-- Modelled from the spec (section 4.3, List entries): the per-rank
lengths are reconciled first; each element index then goes through an
independent buffer-entry reconciliation and exchange, a rank past its own
length contributing none; finally slot i keeps exactly the first
(length of rank i) exchanged elements belonging to rank i. -/
def syncListEntry (fams : List (List Buffer)) : List (List Buffer) :=
  let lengths := _sync_list_length fams
  let maxLen := lengths.foldr Nat.max 0
  let syncedCols : List (List (Option Buffer)) :=
    (List.range maxLen).map (fun j => syncBufferEntry (fams.map (fun l => l[j]?)))
  (List.range fams.length).map (fun i =>
    (List.range (lengths.getD i 0)).map (fun j =>
      ((syncedCols.getD j []).getD i none).getD defaultBuffer))

/-- Projection of a scalar node; none on any other node kind (a structural
mismatch, which the protocol fails fast on). -/
def getScalar : StateTree → Option NumVal
  | .scalar v => some v
  | _ => none

/-- Projection of a buffer node (the buffer may itself be absent). -/
def getTensor : StateTree → Option (Option Buffer)
  | .tensor b => some b
  | _ => none

/-- Projection of a list node. -/
def getTList : StateTree → Option (List Buffer)
  | .tlist bs => some bs
  | _ => none

/-- Projection of a mapping node. -/
def getMapping : StateTree → Option TreeMap
  | .mapping m => some m
  | _ => none

/-- Projection of a mapping entry: succeeds only when the next key matches
the expected one, which enforces identical key insertion order across
ranks, as section 4.1 of the spec requires of callers. -/
def getConsAt (k : String) : TreeMap → Option (StateTree × TreeMap)
  | .cons k2 t rest => if k2 = k then some (t, rest) else none
  | .nil => none

/-- Projection of an empty mapping. -/
def getNil : TreeMap → Option Unit
  | .nil => some ()
  | .cons _ _ _ => none

mutual
/-- Structural comparability of two trees (section 3 of the spec): the
same node kind at every path and identical ordered key sequences, while
buffer shapes, buffer absence and list lengths may differ. -/
def sameShapeT : StateTree → StateTree → Bool
  | .scalar _, .scalar _ => true
  | .tensor _, .tensor _ => true
  | .tlist _, .tlist _ => true
  | .mapping m1, .mapping m2 => sameShapeM m1 m2
  | _, _ => false

/-- Structural comparability of two mappings: equal keys in equal order,
comparable subtrees. -/
def sameShapeM : TreeMap → TreeMap → Bool
  | .nil, .nil => true
  | .cons k1 t1 r1, .cons k2 t2 r2 => k1 == k2 && sameShapeT t1 t2 && sameShapeM r1 r2
  | _, _ => false
end

mutual
/-- A tree holds concrete data everywhere: no absent buffer leaf. -/
def concreteT : StateTree → Bool
  | .scalar _ => true
  | .tensor b => b.isSome
  | .tlist _ => true
  | .mapping m => concreteM m

/-- All subtrees of a mapping hold concrete data. -/
def concreteM : TreeMap → Bool
  | .nil => true
  | .cons _ t rest => concreteT t && concreteM rest
end

/-- Kind tag of a flat traversal entry. -/
inductive EntryKind where
  | scalarK
  | bufferK
  | listK
deriving DecidableEq

mutual
/-- Modelled from the spec (section 4.1): the traversal planner flattens a
tree into a deterministic ordered sequence of (path, kind) entries,
mapping keys in insertion order; scalars, buffers and lists are leaves,
and an absent buffer still occupies a buffer-kind slot. -/
def planT : StateTree → List (List String × EntryKind)
  | .scalar _ => [([], .scalarK)]
  | .tensor _ => [([], .bufferK)]
  | .tlist _ => [([], .listK)]
  | .mapping m => planM m

/-- Planner on mappings: entries of each member in key order, the key
consed onto each path. -/
def planM : TreeMap → List (List String × EntryKind)
  | .nil => []
  | .cons k t rest => (planT t).map (fun e => (k :: e.1, e.2)) ++ planM rest
end

/-- Modelled from the spec (section 6): the exposed traversal-order
planner of synclib. -/
def metrics_traversal_order : StateTree → List (List String × EntryKind) := planT

mutual
/-- Modelled from the spec (sections 4.2 to 4.4): synchronize one traversal
position across the family of per-rank trees, driven by the shape of the
first tree (every rank computes the same plan from its structurally
comparable tree).  Scalars, buffers and lists go through their entry
exchanges; mappings recurse member-wise and are recombined under the
original keys in the original order.  A structural mismatch between ranks
yields none (fail fast, section 7). -/
def syncT (d : StateTree) (fams : List StateTree) : Option (List StateTree) :=
  match d with
  | .scalar _ =>
      match fams.mapM getScalar with
      | none => none
      | some vs => some ((syncScalarEntry vs).map StateTree.scalar)
  | .tensor _ =>
      match fams.mapM getTensor with
      | none => none
      | some bs => some ((syncBufferEntry bs).map StateTree.tensor)
  | .tlist _ =>
      match fams.mapM getTList with
      | none => none
      | some ls => some ((syncListEntry ls).map StateTree.tlist)
  | .mapping dm =>
      match fams.mapM getMapping with
      | none => none
      | some ms =>
          match syncM dm ms with
          | none => none
          | some synced => some (synced.map StateTree.mapping)

/-- Synchronize a family of mappings member-wise, preserving key order. -/
def syncM (dm : TreeMap) (fams : List TreeMap) : Option (List TreeMap) :=
  match dm with
  | .nil =>
      match fams.mapM getNil with
      | none => none
      | some _ => some (fams.map (fun _ => TreeMap.nil))
  | .cons k t rest =>
      match fams.mapM (getConsAt k) with
      | none => none
      | some heads =>
          match syncT t (heads.map Prod.fst), syncM rest (heads.map Prod.snd) with
          | some hs, some rs => some (List.zipWith (fun h r => TreeMap.cons k h r) hs rs)
          | _, _ => none
end

/-- Modelled from the spec (section 6): sync_states on the family of
per-rank state trees returns the synchronized bundle, the ordered list
whose slot i is the fully materialized tree of rank i, identical on every
rank.  The plan is recomputed from the first tree, which is legitimate
because every rank must supply a structurally comparable tree. -/
def sync_states (fams : List StateTree) : Option (List StateTree) :=
  match fams with
  | [] => some []
  | d :: _ => syncT d fams

/-- Errors the toolkit can raise.  The source raises RuntimeError with two
distinct messages from _validate_rank_and_world_size; key and type errors
model the dict indexing in get_synced_metric_collection. -/
inductive ToolkitError where
  | notInGroup
  | unexpectedWorldSize (ws : Int)
  | keyError (k : String)
  | typeError
deriving DecidableEq

/-- A metric object as far as the toolkit inspects it: its named state and
its device.  The Metric class itself lives outside the two source files;
only this interface is exercised by toolkit.py. -/
structure Metric where
  state : StateTree
  device : String
deriving DecidableEq

/-- Fallback metric used only to totalize out-of-range indexing in the
model; never reached on well-formed calls. -/
def defaultMetric : Metric := ⟨StateTree.scalar (NumVal.intV 0), ""⟩

/-- Modelled from the spec (section 6, metric layer interface): moving a
metric to a device; the toolkit only relies on it returning the moved
metric. -/
def Metric.to (m : Metric) (dev : String) : Metric := { m with device := dev }

/-- From toolkit.py (clone_metric): a deepcopy of the input metric.  In
this value-level model a copy is the same value; the freshness of the
copied object is an aliasing property outside the model. -/
def clone_metric (m : Metric) : Metric := m

/-- Argument of _sync_metric_object in the source: either a single Metric
or a mutable mapping of names to metrics (a Python dict in insertion
order).  Nothing in Python prevents a rank from contributing either
variant, which is what claim-relevant isinstance checks inspect. -/
inductive MetricData where
  | single (m : Metric)
  | dict (d : List (String × Metric))
deriving DecidableEq

/-- From toolkit.py lines 377-382: the preparation step of
_sync_metric_object applies the _prepare_for_merge_state hook to the
metric itself, or to every metric in the mapping.  The hook implementation
belongs to the Metric subclasses outside the source files, so it is passed
in as a function. -/
def prepareData (prep : Metric → Metric) : MetricData → MetricData
  | .single m => .single (prep m)
  | .dict d => .dict (d.map (fun kv => (kv.1, prep kv.2)))

/-- From toolkit.py (_sync_metric_object), in the global model: every rank
mutates its own input in place by the preparation hook, then one
all_gather_object call delivers the ordered list of prepared objects to
every rank.  Returned are the gathered list, the per-rank inputs as left
after the call (prepared in place), and the number of collective calls
issued, which is exactly one. -/
def _sync_metric_object (prep : α → α) (datas : List α) :
    List α × List α × Nat :=
  let prepared := datas.map prep
  (all_gather_object prepared, prepared, 1)

/-- From toolkit.py lines 337-350 (_validate_rank_and_world_size): world
size 1 only logs a warning (returned as the Boolean); world size -1
raises the not-part-of-the-process-group error; any other world size
below 1 raises the unexpected-world-size error. -/
def _validate_rank_and_world_size (ws : Int) : Except ToolkitError Bool :=
  if ws = 1 then .ok true
  else if ws = -1 then .error .notInGroup
  else if ws < 1 then .error (.unexpectedWorldSize ws)
  else .ok false

/-- From toolkit.py lines 206-260 (get_synced_metric), in the global
model: metrics is the family of per-rank inputs (so the world size is its
length) and rank the calling rank.  After validation, world size 1
returns the calling rank input untouched with zero collective calls;
otherwise the prepared metric objects are gathered (one collective call),
then the result is a clone of the gathered rank-0 metric, moved to the
calling rank own device, merged with the remaining gathered metrics.  The
merge_state hook belongs to the Metric subclasses outside the source
files, so it is passed in as a function.  Returned besides the result are
the per-rank inputs as left after the call and the collective call
count. -/
def get_synced_metric (prep : Metric → Metric)
    (merge : Metric → List Metric → Metric)
    (metrics : List Metric) (rank : Nat) :
    Except ToolkitError (Metric × List Metric × Nat) :=
  match _validate_rank_and_world_size (metrics.length : Int) with
  | .error e => .error e
  | .ok _ =>
    if metrics.length = 1 then
      .ok (metrics.getD rank defaultMetric, metrics, 0)
    else
      let sync := _sync_metric_object prep metrics
      let g0 := sync.1.headD defaultMetric
      .ok (merge ((clone_metric g0).to ((metrics.getD rank defaultMetric).device))
             sync.1.tail,
           sync.2.1, sync.2.2)

/-- From toolkit.py lines 312-334: indexing a gathered per-rank object by
a metric key; a non-mapping object cannot be indexed (TypeError in
Python) and a missing key raises (KeyError in Python). -/
def lookupMetric : MetricData → String → Except ToolkitError Metric
  | .single _, _ => .error .typeError
  | .dict d, k =>
      match d.find? (fun kv => kv.1 == k) with
      | some kv => .ok kv.2
      | none => .error (.keyError k)

/-- From toolkit.py lines 263-334 (get_synced_metric_collection), in the
global model: datas is the family of per-rank inputs and rank the calling
rank.  After validation, world size 1 returns the calling rank input
untouched with zero collective calls; otherwise the prepared objects are
gathered (one collective call) and, only when the gathered rank-0 object
is a mapping, a merged dict is built keyed in rank-0 key order, each
metric being a clone of the rank-0 metric moved to its own device and
merged with the same-key metrics of the other ranks.  When the gathered
rank-0 object is not a mapping the isinstance branch is skipped and the
function falls through, returning none (Python None) without raising. -/
def get_synced_metric_collection (prep : Metric → Metric)
    (merge : Metric → List Metric → Metric)
    (datas : List MetricData) (rank : Nat) :
    Except ToolkitError (Option MetricData × List MetricData × Nat) :=
  match _validate_rank_and_world_size (datas.length : Int) with
  | .error e => .error e
  | .ok _ =>
    if datas.length = 1 then
      .ok (some (datas.getD rank (MetricData.dict [])), datas, 0)
    else
      let sync := _sync_metric_object (prepareData prep) datas
      let gathered := sync.1
      match gathered.headD (MetricData.dict []) with
      | .single _ => .ok (none, sync.2.1, sync.2.2)
      | .dict rank0 =>
          match rank0.mapM (fun kv =>
            ((List.range (datas.length - 1)).mapM (fun r =>
                lookupMetric (gathered.getD (r + 1) (MetricData.dict [])) kv.1)).map
              (fun others =>
                (kv.1, merge ((clone_metric kv.2).to kv.2.device) others))) with
          | .error e => .error e
          | .ok merged => .ok (some (.dict merged), sync.2.1, sync.2.2)

/-- Concrete metric used to exercise get_synced_metric on explicit inputs. -/
def exMetric : Metric := ⟨StateTree.scalar (NumVal.intV 0), "cpu"⟩

/-- Concrete preparation hook that rewrites the metric state, exhibiting a
_prepare_for_merge_state implementation that is not the identity. -/
def exPrepare : Metric → Metric :=
  fun m => { m with state := StateTree.scalar (NumVal.intV 1) }

/-- Concrete merge hook that keeps the base metric. -/
def exMerge : Metric → List Metric → Metric := fun m _ => m

/-- Every member of a list of natural numbers is bounded by the folded
maximum. -/
theorem le_foldr_max (l : List Nat) (x : Nat) (h : x ∈ l) :
    x ≤ l.foldr Nat.max 0 := by
  induction l with
  | nil => cases h
  | cons a rest ih =>
      rcases List.mem_cons.mp h with h | h
      · subst h; exact Nat.le_max_left _ _
      · exact Nat.le_trans (ih h) (Nat.le_max_right _ _)

/-- If some rank holds a concrete buffer, reconciliation settles on a
concrete descriptor. -/
theorem sync_dtype_exists_of_mem (col : List (Option Buffer)) (b : Buffer)
    (h : some b ∈ col) : ∃ p, _sync_dtype_and_shape col = some p := by
  induction col with
  | nil => cases h
  | cons c rest ih =>
      cases c with
      | some b2 =>
          exact ⟨(b2.dtype, b2.shape),
            by simp [_sync_dtype_and_shape, all_gather_object, descriptor,
                     List.filterMap_cons]⟩
      | none =>
          rcases List.mem_cons.mp h with h | h
          · cases h
          · obtain ⟨p, hp⟩ := ih h
            exact ⟨p, by simpa [_sync_dtype_and_shape, all_gather_object, descriptor,
                                List.filterMap_cons] using hp⟩

/-- With a concrete reconciled descriptor, the buffer exchange is the
pointwise gather of own-buffer-or-placeholder. -/
theorem syncBufferEntry_eq_map (col : List (Option Buffer)) (p : DType × List Nat)
    (h : _sync_dtype_and_shape col = some p) :
    syncBufferEntry col = col.map (fun c => some (c.getD (zeroBuffer p.1 p.2))) := by
  cases p with
  | mk dt sh =>
      simp only [syncBufferEntry, h, all_gather_fixed, List.map_map]
      rfl

/-- A slot holding a concrete buffer keeps exactly that buffer through the
buffer-entry exchange. -/
theorem syncBufferEntry_getElem (col : List (Option Buffer)) (i : Nat) (b : Buffer)
    (h : col[i]? = some (some b)) : (syncBufferEntry col)[i]? = some (some b) := by
  have hmem : some b ∈ col := List.getElem?_mem h
  obtain ⟨p, hp⟩ := sync_dtype_exists_of_mem col b hmem
  rw [syncBufferEntry_eq_map col p hp]
  simp [List.getElem?_map, h]

/-- Mapping own-buffer-or-placeholder over an all-concrete column is the
identity. -/
theorem map_some_getD (l : List (Option Buffer)) (z : Buffer)
    (h : ∀ c ∈ l, Option.isSome c = true) :
    l.map (fun c => some (c.getD z)) = l := by
  induction l with
  | nil => rfl
  | cons c rest ih =>
      obtain ⟨b, hb⟩ := Option.isSome_iff_exists.mp (h c (by simp))
      subst hb
      simp only [List.map_cons, Option.getD_some, List.cons.injEq, true_and]
      exact ih (fun x hx => h x (by simp [hx]))

/-- The buffer-entry exchange is the identity on an all-concrete column. -/
theorem syncBufferEntry_all_some (col : List (Option Buffer))
    (h : ∀ c ∈ col, Option.isSome c = true) : syncBufferEntry col = col := by
  cases col with
  | nil => rfl
  | cons c rest =>
      obtain ⟨b, hb⟩ := Option.isSome_iff_exists.mp (h c (by simp))
      subst hb
      obtain ⟨p, hp⟩ := sync_dtype_exists_of_mem (some b :: rest) b (by simp)
      rw [syncBufferEntry_eq_map _ p hp]
      exact map_some_getD _ _ h

/-- Reconciliation returns the descriptor of the first concrete rank in
ascending rank order. -/
theorem sync_dtype_first_concrete :
    ∀ (contribs : List (Option Buffer)) (i : Nat) (b : Buffer),
      contribs.getD i none = some b →
      (∀ j, j < i → contribs.getD j none = none) →
      _sync_dtype_and_shape contribs = some (b.dtype, b.shape) := by
  intro contribs
  induction contribs with
  | nil => intro i b hb _; simp [List.getD_eq_getElem?_getD] at hb
  | cons c rest ih =>
      intro i b hb hprev
      cases i with
      | zero =>
          have hc : c = some b := by simpa using hb
          subst hc
          simp [_sync_dtype_and_shape, all_gather_object, descriptor,
                List.filterMap_cons]
      | succ i =>
          have hc : c = none := by simpa using hprev 0 (Nat.succ_pos i)
          subst hc
          have hb2 : rest.getD i none = some b := by simpa using hb
          have hprev2 : ∀ j, j < i → rest.getD j none = none := by
            intro j hj
            simpa using hprev (j + 1) (Nat.succ_lt_succ hj)
          simpa [_sync_dtype_and_shape, all_gather_object, descriptor,
                 List.filterMap_cons] using ih i b hb2 hprev2

/-- Reconciliation over an all-absent column is absent-for-all. -/
theorem sync_dtype_all_none (contribs : List (Option Buffer))
    (h : ∀ c ∈ contribs, c = none) : _sync_dtype_and_shape contribs = none := by
  induction contribs with
  | nil => rfl
  | cons c rest ih =>
      have hc : c = none := h c (by simp)
      subst hc
      simpa [_sync_dtype_and_shape, all_gather_object, descriptor,
             List.filterMap_cons] using ih (fun x hx => h x (by simp [hx]))

/-- The list-entry exchange hands every slot back exactly the originating
rank elements: slot i of the output is the input list of rank i. -/
theorem syncListEntry_id (fams : List (List Buffer)) : syncListEntry fams = fams := by
  apply List.ext_getElem
  · simp [syncListEntry]
  · intro i hi1 hi2
    simp only [syncListEntry, _sync_list_length, all_gather_object,
      List.getElem_map, List.getElem_range, List.length_map, List.length_range] at hi1 ⊢
    have hlen : (fams.map List.length).getD i 0 = fams[i].length := by
      simp [List.getD_eq_getElem?_getD, List.getElem?_map,
            List.getElem?_eq_getElem hi2]
    rw [hlen]
    apply List.ext_getElem
    · simp
    · intro j hj1 hj2
      simp only [List.getElem_map, List.getElem_range, List.length_map,
        List.length_range] at hj1 ⊢
      have hmem : fams[i].length ∈ fams.map List.length :=
        List.mem_map_of_mem List.length (List.getElem_mem hi2)
      have hjmax : j < (fams.map List.length).foldr Nat.max 0 :=
        Nat.lt_of_lt_of_le hj1 (le_foldr_max _ _ hmem)
      have hcol : ((List.range ((fams.map List.length).foldr Nat.max 0)).map
          (fun j => syncBufferEntry (fams.map (fun l => l[j]?)))).getD j [] =
          syncBufferEntry (fams.map (fun l => l[j]?)) := by
        simp [List.getD_eq_getElem?_getD, List.getElem?_map, List.getElem?_range hjmax]
      rw [hcol]
      have hci : (fams.map (fun l => l[j]?))[i]? = some (some fams[i][j]) := by
        simp [List.getElem?_map, List.getElem?_eq_getElem hi2,
              List.getElem?_eq_getElem hj1]
      rw [List.getD_eq_getElem?_getD, syncBufferEntry_getElem _ _ _ hci]
      simp

/-- C2: for every per-rank assignment of a concrete buffer or none at a
buffer path, reconciliation returns on every rank the (dtype, shape) of
the first rank in ascending rank order holding a concrete buffer, and the
absent-for-all result none when no rank holds one. -/
theorem sync_dtype_and_shape_first_rank_wins (contribs : List (Option Buffer)) :
    ((∀ c ∈ contribs, c = none) → _sync_dtype_and_shape contribs = none) ∧
    (∀ i b, contribs.getD i none = some b →
      (∀ j, j < i → contribs.getD j none = none) →
      _sync_dtype_and_shape contribs = some (b.dtype, b.shape)) :=
  ⟨sync_dtype_all_none contribs, sync_dtype_first_concrete contribs⟩

/-- Witness for C2: rank 0 absent, rank 1 holding a float64 scalar-shaped
buffer; the reconciled metadata is that of rank 1, and the all-absent
family reconciles to none. -/
theorem sync_dtype_and_shape_first_rank_wins_witness :
    _sync_dtype_and_shape [none, some ⟨DType.float64, [], [3]⟩] =
      some (DType.float64, []) ∧
    _sync_dtype_and_shape [none, none] = none :=
  ⟨(sync_dtype_and_shape_first_rank_wins
      [none, some ⟨DType.float64, [], [3]⟩]).2 1 ⟨DType.float64, [], [3]⟩
      (by decide)
      (fun j hj => by interval_cases j <;> decide),
    (sync_dtype_and_shape_first_rank_wins [none, none]).1 (by decide)⟩

/-- C3: list-length reconciliation returns, on every rank, exactly the
ordered sequence of per-rank local lengths indexed by rank; in particular
local lengths 1, 0, 4, 3 on ranks 0..3 yield [1, 0, 4, 3] everywhere,
length 0 round-tripping as 0. -/
theorem sync_list_length_ordered :
    (∀ fams : List (List Buffer), _sync_list_length fams = fams.map List.length) ∧
    _sync_list_length
      [[⟨DType.int64, [], [1]⟩], [],
       [⟨DType.int64, [], [1]⟩, ⟨DType.int64, [], [1]⟩, ⟨DType.int64, [], [1]⟩,
        ⟨DType.int64, [], [1]⟩],
       [⟨DType.int64, [], [1]⟩, ⟨DType.int64, [], [1]⟩, ⟨DType.int64, [], [1]⟩]] =
      [1, 0, 4, 3] :=
  ⟨fun _ => rfl, rfl⟩

/-- C4: the list-entry exchange preserves per-slot lengths and contents:
slot i of every rank bundle holds exactly the number of elements rank i
contributed with rank i values, an empty contribution coming back empty at
its own slot while the other slots keep their nonzero contributions. -/
theorem sync_list_slots_preserved (fams : List (List Buffer)) (i : Nat)
    (h : i < fams.length) :
    ((syncListEntry fams).getD i []).length = (fams.getD i []).length ∧
    (syncListEntry fams).getD i [] = fams.getD i [] ∧
    ((fams.getD i [] = []) → (syncListEntry fams).getD i [] = []) := by
  rw [syncListEntry_id]
  exact ⟨rfl, rfl, fun hemp => hemp⟩

/-- Witness for C4: ranks contributing lengths 2 and 0; slot 0 keeps the
two rank-0 elements and slot 1 is empty. -/
theorem sync_list_slots_preserved_witness :
    ((syncListEntry [[⟨DType.float32, [2], [1, 2]⟩, ⟨DType.float32, [2], [3, 4]⟩], []]).getD
        1 []).length = 0 ∧
    (syncListEntry [[⟨DType.float32, [2], [1, 2]⟩, ⟨DType.float32, [2], [3, 4]⟩], []]).getD
        0 [] = [⟨DType.float32, [2], [1, 2]⟩, ⟨DType.float32, [2], [3, 4]⟩] := by
  refine ⟨?_, ?_⟩
  · have h := sync_list_slots_preserved
      [[⟨DType.float32, [2], [1, 2]⟩, ⟨DType.float32, [2], [3, 4]⟩], []] 1 (by decide)
    exact h.1.trans (by decide)
  · have h := sync_list_slots_preserved
      [[⟨DType.float32, [2], [1, 2]⟩, ⟨DType.float32, [2], [3, 4]⟩], []] 0 (by decide)
    exact h.2.1.trans (by decide)

/-- C5: at a scalar path where ranks report mixed numeric kinds, the
exchange hands every slot the originating rank value with its own numeric
kind, performing no coercion. -/
theorem numeric_scalar_passthrough (vs : List NumVal)
    (hmix : ∃ i j, (vs.getD i (NumVal.intV 0)).isFloat = true ∧
      (vs.getD j (NumVal.intV 0)).isFloat = false) :
    ∀ k, k < vs.length →
      (syncScalarEntry vs).getD k (NumVal.intV 0) = vs.getD k (NumVal.intV 0) ∧
      ((syncScalarEntry vs).getD k (NumVal.intV 0)).isFloat =
        (vs.getD k (NumVal.intV 0)).isFloat :=
  fun _ _ => ⟨rfl, rfl⟩

/-- Witness for C5: ranks 0 and 1 reporting integers and rank 2 reporting
the float 51.0; slot 2 keeps the float with floating kind. -/
theorem numeric_scalar_passthrough_witness :
    (syncScalarEntry [NumVal.intV 11, NumVal.intV 43, NumVal.floatV 51]).getD 2
        (NumVal.intV 0) = NumVal.floatV 51 ∧
    ((syncScalarEntry [NumVal.intV 11, NumVal.intV 43, NumVal.floatV 51]).getD 2
        (NumVal.intV 0)).isFloat = true := by
  obtain ⟨h1, h2⟩ := numeric_scalar_passthrough
    [NumVal.intV 11, NumVal.intV 43, NumVal.floatV 51]
    ⟨2, 0, by decide, by decide⟩ 2 (by decide)
  exact ⟨h1.trans (by decide), h2.trans (by decide)⟩

/-- C7: validation raises exactly when the reported world size is below 1,
with the distinct not-part-of-the-process-group error at world size -1;
world size 1 only logs a warning-level notice (the Boolean) and does not
raise. -/
theorem validate_world_size_spec (ws : Int) :
    ((∃ e, _validate_rank_and_world_size ws = .error e) ↔ ws < 1) ∧
    _validate_rank_and_world_size (-1) = .error ToolkitError.notInGroup ∧
    _validate_rank_and_world_size 1 = .ok true ∧
    (ws < 1 → ws ≠ -1 →
      _validate_rank_and_world_size ws = .error (.unexpectedWorldSize ws)) := by
  refine ⟨⟨?_, ?_⟩, rfl, rfl, ?_⟩
  · rintro ⟨e, he⟩
    unfold _validate_rank_and_world_size at he
    split_ifs at he with h1 h2 h3
    · omega
    · exact h3
  · intro hlt
    unfold _validate_rank_and_world_size
    split_ifs with h1 h2
    · omega
    · exact ⟨.notInGroup, rfl⟩
    · exact ⟨.unexpectedWorldSize ws, rfl⟩
  · intro hlt hne
    unfold _validate_rank_and_world_size
    split_ifs with h1
    · omega
    · rfl

/-- Witness for C7: world size 0 is invalid but not the missing-membership
case, so the unexpected-world-size error is raised. -/
theorem validate_world_size_spec_witness :
    _validate_rank_and_world_size 0 = .error (ToolkitError.unexpectedWorldSize 0) :=
  (validate_world_size_spec 0).2.2.2 (by decide) (by decide)

/-- C6: with exactly one participant both toolkit entry points
short-circuit to the identity pass: the returned object is the calling
rank local state unchanged (the one-element bundle being that state
itself), the inputs are untouched, and zero collective calls are
issued. -/
theorem world_size_one_identity (prep : Metric → Metric)
    (merge : Metric → List Metric → Metric) (m : Metric) (d : MetricData) :
    get_synced_metric prep merge [m] 0 = .ok (m, [m], 0) ∧
    get_synced_metric_collection prep merge [d] 0 = .ok (some d, [d], 0) :=
  ⟨rfl, rfl⟩

/-- C9 fails on the code: get_synced_metric applies the
_prepare_for_merge_state hook to the caller input before gathering
(toolkit.py line 379), so a hook that rewrites state leaves the input
changed; with the concrete hook exPrepare, the per-rank inputs after the
call differ from the originals. -/
theorem input_preserved_counterexample :
    (get_synced_metric exPrepare exMerge [exMetric, exMetric] 0).map
        (fun r => r.2.1) = .ok [exPrepare exMetric, exPrepare exMetric] ∧
    exPrepare exMetric ≠ exMetric :=
  ⟨rfl, by decide⟩

/-- C9 amended: with world size above one, the call changes the caller
inputs only by applying their own _prepare_for_merge_state hook to them
(the gather, clone and merge operate on the gathered copies); in
particular when the hook is the identity the inputs are left unchanged. -/
theorem input_changed_only_by_prepare (prep : Metric → Metric)
    (merge : Metric → List Metric → Metric) (metrics : List Metric) (rank : Nat)
    (h : 2 ≤ metrics.length) :
    (get_synced_metric prep merge metrics rank).map (fun r => r.2.1) =
      .ok (metrics.map prep) ∧
    ((∀ m, prep m = m) →
      (get_synced_metric prep merge metrics rank).map (fun r => r.2.1) =
        .ok metrics) := by
  have c1 : ¬ ((metrics.length : Int) = 1) := by omega
  have c2 : ¬ ((metrics.length : Int) = -1) := by omega
  have c3 : ¬ ((metrics.length : Int) < 1) := by omega
  have hv : _validate_rank_and_world_size (metrics.length : Int) = .ok false := by
    unfold _validate_rank_and_world_size
    rw [if_neg c1, if_neg c2, if_neg c3]
  have hne : ¬ metrics.length = 1 := by omega
  constructor
  · simp only [get_synced_metric, hv, if_neg hne, _sync_metric_object,
      all_gather_object, Except.map]
  · intro hid
    have hpe : prep = id := funext hid
    have hmap : metrics.map prep = metrics := by
      rw [hpe, List.map_id]
    simp only [get_synced_metric, hv, if_neg hne, _sync_metric_object,
      all_gather_object, Except.map, hmap]

/-- Witness for C9 amended: two ranks with the identity hook; the inputs
come back unchanged. -/
theorem input_changed_only_by_prepare_witness :
    (get_synced_metric (fun m => m) (fun m _ => m)
        [⟨StateTree.scalar (NumVal.intV 0), "cpu"⟩,
         ⟨StateTree.scalar (NumVal.intV 7), "cpu"⟩] 0).map (fun r => r.2.1) =
      .ok [⟨StateTree.scalar (NumVal.intV 0), "cpu"⟩,
           ⟨StateTree.scalar (NumVal.intV 7), "cpu"⟩] :=
  (input_changed_only_by_prepare (fun m => m) (fun m _ => m)
      [⟨StateTree.scalar (NumVal.intV 0), "cpu"⟩,
       ⟨StateTree.scalar (NumVal.intV 7), "cpu"⟩] 0 (by decide)).2 (fun _ => rfl)

/-- C10: with world size above one, get_synced_metric_collection returns a
merged dict only when the gathered rank-0 object is a mutable mapping;
when rank 0 contributed a non-mapping object the isinstance branch is
skipped and the call returns none (Python None) without raising, despite
the non-optional declared return type. -/
theorem collection_non_mapping_returns_none (prep : Metric → Metric)
    (merge : Metric → List Metric → Metric) (m : Metric) (rest : List MetricData)
    (rank : Nat) (h : rest ≠ []) :
    get_synced_metric_collection prep merge (.single m :: rest) rank =
      .ok (none, (MetricData.single m :: rest).map (prepareData prep), 1) := by
  have h0 : 0 < rest.length := List.length_pos.mpr h
  have hlen : (MetricData.single m :: rest).length = rest.length + 1 := by simp
  have c1 : ¬ (((MetricData.single m :: rest).length : Int) = 1) := by
    rw [hlen]; omega
  have c2 : ¬ (((MetricData.single m :: rest).length : Int) = -1) := by
    rw [hlen]; omega
  have c3 : ¬ (((MetricData.single m :: rest).length : Int) < 1) := by
    rw [hlen]; omega
  have hv : _validate_rank_and_world_size
      ((MetricData.single m :: rest).length : Int) = .ok false := by
    unfold _validate_rank_and_world_size
    rw [if_neg c1, if_neg c2, if_neg c3]
  have hne : ¬ (MetricData.single m :: rest).length = 1 := by
    rw [hlen]; omega
  simp only [get_synced_metric_collection, hv, if_neg hne, _sync_metric_object,
    all_gather_object, List.map_cons, List.headD_cons, prepareData]

/-- Witness for C10: rank 0 contributing a bare metric while rank 1
contributes an empty dict; the call returns none with no error raised. -/
theorem collection_non_mapping_returns_none_witness :
    get_synced_metric_collection (fun m => m) (fun m _ => m)
        [.single ⟨StateTree.scalar (NumVal.intV 0), "cpu"⟩, .dict []] 0 =
      .ok (none,
        [.single ⟨StateTree.scalar (NumVal.intV 0), "cpu"⟩, .dict []], 1) := by
  have h := collection_non_mapping_returns_none (fun m => m) (fun m _ => m)
    ⟨StateTree.scalar (NumVal.intV 0), "cpu"⟩ [.dict []] 0 (by simp)
  simpa [prepareData] using h

/-- C8 fails on the modelled code: at a buffer path where rank 0 reports a
float64 buffer and rank 1 an int64 buffer, reconciliation does not raise
any failure; it silently adopts the rank-0 descriptor, following the
observed gather-then-pick-index-0 policy. -/
theorem conflicting_dtype_counterexample :
    _sync_dtype_and_shape
        [some ⟨DType.float64, [], [0]⟩, some ⟨DType.int64, [], [0]⟩] =
      some (DType.float64, []) ∧ DType.float64 ≠ DType.int64 :=
  ⟨rfl, by decide⟩

/-- C8 amended: at a buffer path where two ranks report concrete buffers
with different dtypes, metadata reconciliation silently adopts the
(dtype, shape) of the first concrete rank in ascending rank order; no
failure is surfaced to the caller. -/
theorem conflicting_dtype_first_wins (contribs : List (Option Buffer)) (i : Nat)
    (b : Buffer)
    (hb : contribs.getD i none = some b)
    (hfirst : ∀ j, j < i → contribs.getD j none = none)
    (hconf : ∃ j b2, i < j ∧ contribs.getD j none = some b2 ∧ b2.dtype ≠ b.dtype) :
    _sync_dtype_and_shape contribs = some (b.dtype, b.shape) :=
  sync_dtype_first_concrete contribs i b hb hfirst

/-- Witness for C8 amended: rank 0 reporting a float64 buffer of shape [2]
and rank 1 an int32 scalar-shaped buffer; the adopted metadata is that of
rank 0. -/
theorem conflicting_dtype_first_wins_witness :
    _sync_dtype_and_shape
        [some ⟨DType.float64, [2], [0, 0]⟩, some ⟨DType.int32, [], [0]⟩] =
      some (DType.float64, [2]) :=
  conflicting_dtype_first_wins
    [some ⟨DType.float64, [2], [0, 0]⟩, some ⟨DType.int32, [], [0]⟩]
    0 ⟨DType.float64, [2], [0, 0]⟩ (by decide)
    (fun j hj => absurd hj (Nat.not_lt_zero j))
    ⟨1, ⟨DType.int32, [], [0]⟩, Nat.zero_lt_one, by decide, by decide⟩

/-- A tree comparable to a scalar node is a scalar node. -/
theorem shape_scalar_inv (v0 : NumVal) (t : StateTree)
    (h : sameShapeT (.scalar v0) t = true) : ∃ v, t = StateTree.scalar v := by
  cases t with
  | scalar v => exact ⟨v, rfl⟩
  | tensor b => simp [sameShapeT] at h
  | tlist bs => simp [sameShapeT] at h
  | mapping m => simp [sameShapeT] at h

/-- A tree comparable to a buffer node is a buffer node. -/
theorem shape_tensor_inv (b0 : Option Buffer) (t : StateTree)
    (h : sameShapeT (.tensor b0) t = true) : ∃ c, t = StateTree.tensor c := by
  cases t with
  | scalar v => simp [sameShapeT] at h
  | tensor c => exact ⟨c, rfl⟩
  | tlist bs => simp [sameShapeT] at h
  | mapping m => simp [sameShapeT] at h

/-- A tree comparable to a list node is a list node. -/
theorem shape_tlist_inv (bs0 : List Buffer) (t : StateTree)
    (h : sameShapeT (.tlist bs0) t = true) : ∃ bs, t = StateTree.tlist bs := by
  cases t with
  | scalar v => simp [sameShapeT] at h
  | tensor c => simp [sameShapeT] at h
  | tlist bs => exact ⟨bs, rfl⟩
  | mapping m => simp [sameShapeT] at h

/-- A tree comparable to a mapping node is a mapping node. -/
theorem shape_mapping_inv (m0 : TreeMap) (t : StateTree)
    (h : sameShapeT (.mapping m0) t = true) : ∃ m, t = StateTree.mapping m := by
  cases t with
  | scalar v => simp [sameShapeT] at h
  | tensor c => simp [sameShapeT] at h
  | tlist bs => simp [sameShapeT] at h
  | mapping m => exact ⟨m, rfl⟩

/-- A mapping comparable to the empty mapping is empty. -/
theorem shape_nil_inv (mm : TreeMap) (h : sameShapeM .nil mm = true) :
    mm = TreeMap.nil := by
  cases mm with
  | nil => rfl
  | cons k t r => simp [sameShapeM] at h

/-- A mapping comparable to a nonempty mapping starts with the same key and
has comparable head subtree and tail. -/
theorem shape_cons_inv (k : String) (t : StateTree) (r : TreeMap) (mm : TreeMap)
    (h : sameShapeM (.cons k t r) mm = true) :
    ∃ t2 r2, mm = TreeMap.cons k t2 r2 ∧ sameShapeT t t2 = true ∧
      sameShapeM r r2 = true := by
  cases mm with
  | nil => simp [sameShapeM] at h
  | cons k2 t2 r2 =>
      simp only [sameShapeM, Bool.and_eq_true, beq_iff_eq] at h
      exact ⟨t2, r2, by rw [h.1.1], h.1.2, h.2⟩

/-- Generic extraction for an effectful traversal that inverts a
constructor: when every element projects successfully to a value that
rebuilds it and satisfies P, the mapM succeeds with the list of projected
values. -/
theorem mapM_some_of_forall {α β : Type} (f : α → Option β) (g : β → α)
    (P : β → Prop) (l : List α)
    (h : ∀ x ∈ l, ∃ y, f x = some y ∧ g y = x ∧ P y) :
    ∃ ys, l.mapM f = some ys ∧ ys.map g = l ∧ ∀ y ∈ ys, P y := by
  induction l with
  | nil => exact ⟨[], rfl, rfl, by simp⟩
  | cons x rest ih =>
      obtain ⟨y, hy, hgy, hPy⟩ := h x (by simp)
      obtain ⟨ys, hys, hmap, hP⟩ := ih (fun z hz => h z (by simp [hz]))
      refine ⟨y :: ys, ?_, by simp [hgy, hmap], ?_⟩
      · rw [List.mapM_cons, hy, hys]; rfl
      · intro z hz
        rcases List.mem_cons.mp hz with h | h
        · subst h; exact hPy
        · exact hP z h

/-- Mapping the constant empty mapping over a list of empty mappings is the
identity. -/
theorem map_const_nil (l : List TreeMap) (h : ∀ x ∈ l, x = TreeMap.nil) :
    l.map (fun _ => TreeMap.nil) = l := by
  induction l with
  | nil => rfl
  | cons x rest ih =>
      rw [List.map_cons, h x (by simp), ih (fun z hz => h z (by simp [hz]))]

mutual
/-- Synchronizing a comparable, all-concrete family at a tree position
returns the family unchanged. -/
theorem syncT_roundtrip (d : StateTree) (fams : List StateTree)
    (hshape : ∀ t ∈ fams, sameShapeT d t = true)
    (hconc : ∀ t ∈ fams, concreteT t = true) :
    syncT d fams = some fams := by
  cases d with
  | scalar v =>
      obtain ⟨vs, h1, h2, _⟩ := mapM_some_of_forall getScalar StateTree.scalar
        (fun _ => True) fams (fun x hx => by
          obtain ⟨v2, hv2⟩ := shape_scalar_inv v x (hshape x hx)
          exact ⟨v2, by rw [hv2]; rfl, by rw [hv2], trivial⟩)
      simp only [syncT, h1, syncScalarEntry, all_gather_object, h2]
  | tensor b =>
      obtain ⟨bs, h1, h2, hP⟩ := mapM_some_of_forall getTensor StateTree.tensor
        (fun c => Option.isSome c = true) fams (fun x hx => by
          obtain ⟨c, hc⟩ := shape_tensor_inv b x (hshape x hx)
          refine ⟨c, by rw [hc]; rfl, by rw [hc], ?_⟩
          have hcx := hconc x hx
          rw [hc] at hcx
          simpa [concreteT] using hcx)
      simp only [syncT, h1, syncBufferEntry_all_some bs hP, h2]
  | tlist bs0 =>
      obtain ⟨ls, h1, h2, _⟩ := mapM_some_of_forall getTList StateTree.tlist
        (fun _ => True) fams (fun x hx => by
          obtain ⟨bs, hbs⟩ := shape_tlist_inv bs0 x (hshape x hx)
          exact ⟨bs, by rw [hbs]; rfl, by rw [hbs], trivial⟩)
      simp only [syncT, h1, syncListEntry_id, h2]
  | mapping dm =>
      obtain ⟨ms, h1, h2, hP⟩ := mapM_some_of_forall getMapping StateTree.mapping
        (fun mm => sameShapeM dm mm = true ∧ concreteM mm = true) fams
        (fun x hx => by
          obtain ⟨mm, hmm⟩ := shape_mapping_inv dm x (hshape x hx)
          refine ⟨mm, by rw [hmm]; rfl, by rw [hmm], ?_, ?_⟩
          · have hs := hshape x hx; rw [hmm] at hs; simpa [sameShapeT] using hs
          · have hc := hconc x hx; rw [hmm] at hc; simpa [concreteT] using hc)
      have hrec := syncM_roundtrip dm ms (fun mm hmm => (hP mm hmm).1)
        (fun mm hmm => (hP mm hmm).2)
      simp only [syncT, h1, hrec, h2]

/-- Synchronizing a comparable, all-concrete family of mappings returns the
family unchanged. -/
theorem syncM_roundtrip (dm : TreeMap) (fams : List TreeMap)
    (hshape : ∀ mm ∈ fams, sameShapeM dm mm = true)
    (hconc : ∀ mm ∈ fams, concreteM mm = true) :
    syncM dm fams = some fams := by
  cases dm with
  | nil =>
      obtain ⟨us, h1, _, _⟩ := mapM_some_of_forall getNil (fun _ => TreeMap.nil)
        (fun _ => True) fams (fun x hx => by
          have hn := shape_nil_inv x (hshape x hx)
          exact ⟨(), by rw [hn]; rfl, by rw [hn], trivial⟩)
      have hid := map_const_nil fams (fun x hx => shape_nil_inv x (hshape x hx))
      simp only [syncM, h1, hid]
  | cons k t r =>
      obtain ⟨heads, h1, h2, hP⟩ := mapM_some_of_forall (getConsAt k)
        (fun p => TreeMap.cons k p.1 p.2)
        (fun p => (sameShapeT t p.1 = true ∧ concreteT p.1 = true) ∧
          (sameShapeM r p.2 = true ∧ concreteM p.2 = true)) fams
        (fun x hx => by
          obtain ⟨t2, r2, hx2, hs1, hs2⟩ := shape_cons_inv k t r x (hshape x hx)
          have hc := hconc x hx
          rw [hx2] at hc
          simp only [concreteM, Bool.and_eq_true] at hc
          exact ⟨(t2, r2), by rw [hx2]; simp [getConsAt], by rw [hx2],
            ⟨hs1, hc.1⟩, ⟨hs2, hc.2⟩⟩)
      have hT := syncT_roundtrip t (heads.map Prod.fst)
        (fun x hx => by
          obtain ⟨p, hp, hpx⟩ := List.mem_map.mp hx
          rw [← hpx]; exact (hP p hp).1.1)
        (fun x hx => by
          obtain ⟨p, hp, hpx⟩ := List.mem_map.mp hx
          rw [← hpx]; exact (hP p hp).1.2)
      have hR := syncM_roundtrip r (heads.map Prod.snd)
        (fun x hx => by
          obtain ⟨p, hp, hpx⟩ := List.mem_map.mp hx
          rw [← hpx]; exact (hP p hp).2.1)
        (fun x hx => by
          obtain ⟨p, hp, hpx⟩ := List.mem_map.mp hx
          rw [← hpx]; exact (hP p hp).2.2)
      simp only [syncM, h1, hT, hR]
      rw [List.zipWith_map_left, List.zipWith_map_right, List.zipWith_same]
      exact congrArg some h2
end

/-- C1: for every family of per-rank state trees with concrete data that
are structurally comparable across ranks, synchronizing and reassembling
returns the bundle whose element at index i equals, value for value and
with the same nested keys and list order, rank i original input tree. -/
theorem sync_states_roundtrip (d : StateTree) (rest : List StateTree)
    (hshape : ∀ t ∈ d :: rest, sameShapeT d t = true)
    (hconc : ∀ t ∈ d :: rest, concreteT t = true) :
    sync_states (d :: rest) = some (d :: rest) := by
  simp only [sync_states]
  exact syncT_roundtrip d (d :: rest) hshape hconc

/-- Witness for C1: a two-rank family of two-level mappings with scalar
leaves at different rank-local values, mirroring the nested-dict test; the
bundle returns both trees unchanged. -/
theorem sync_states_roundtrip_witness :
    sync_states
      [StateTree.mapping (TreeMap.cons "tmp"
        (StateTree.mapping (TreeMap.cons "a" (StateTree.scalar (NumVal.intV 1))
          (TreeMap.cons "b" (StateTree.scalar (NumVal.intV 10)) TreeMap.nil)))
        TreeMap.nil),
       StateTree.mapping (TreeMap.cons "tmp"
        (StateTree.mapping (TreeMap.cons "a" (StateTree.scalar (NumVal.intV 2))
          (TreeMap.cons "b" (StateTree.scalar (NumVal.intV 20)) TreeMap.nil)))
        TreeMap.nil)] =
    some
      [StateTree.mapping (TreeMap.cons "tmp"
        (StateTree.mapping (TreeMap.cons "a" (StateTree.scalar (NumVal.intV 1))
          (TreeMap.cons "b" (StateTree.scalar (NumVal.intV 10)) TreeMap.nil)))
        TreeMap.nil),
       StateTree.mapping (TreeMap.cons "tmp"
        (StateTree.mapping (TreeMap.cons "a" (StateTree.scalar (NumVal.intV 2))
          (TreeMap.cons "b" (StateTree.scalar (NumVal.intV 20)) TreeMap.nil)))
        TreeMap.nil)] :=
  sync_states_roundtrip
    (StateTree.mapping (TreeMap.cons "tmp"
      (StateTree.mapping (TreeMap.cons "a" (StateTree.scalar (NumVal.intV 1))
        (TreeMap.cons "b" (StateTree.scalar (NumVal.intV 10)) TreeMap.nil)))
      TreeMap.nil))
    [StateTree.mapping (TreeMap.cons "tmp"
      (StateTree.mapping (TreeMap.cons "a" (StateTree.scalar (NumVal.intV 2))
        (TreeMap.cons "b" (StateTree.scalar (NumVal.intV 20)) TreeMap.nil)))
      TreeMap.nil)]
    (by decide) (by decide)
